import Mathlib

/-!
Verification of the tandem.nvim synchronization engine.

This file shallowly embeds the server-side room authority and broadcast
relay (src/rust/tandem-server/src/main.rs) and the client-side CRDT
document wrapper and delta bridge (src/rust/tandem-ffi/src/crdt.rs).

The external conflict-free replicated text library (Loro) is a
collaborator outside the repository: where its behaviour is needed it is
held abstract (theorems quantify over the export/import/merge functions)
or modelled at the interface the specification describes.

Byte strings are modelled as `List Nat`.
-/

/-! ## Shared string helpers -/

/-- Substring test on character lists, mirroring Rust `str::contains` with a
string pattern: the needle occurs contiguously somewhere in the haystack. -/
def list_contains_sub (needle : List Char) : List Char → Bool
  | [] => needle.isPrefixOf []
  | c :: rest => needle.isPrefixOf (c :: rest) || list_contains_sub needle rest

/-- Substring test on strings (Rust `haystack.contains(needle)`). -/
def str_contains (hay needle : String) : Bool :=
  list_contains_sub needle.data hay.data

/-! ## Server: room authority (src/rust/tandem-server/src/main.rs)

`Room::apply_update` and `Room::export_snapshot` are parameterised over the
external library's export and import functions: `es` models
`doc.export(ExportMode::Snapshot)` (a `Result`, read with `unwrap_or`),
`imp` models `doc.import(update)` which on success yields the merged
document and on failure an error message. -/

/-- Current exported-snapshot size, as `apply_update` computes it:
`doc.export(ExportMode::Snapshot).map(|s| s.len()).unwrap_or(0)`. -/
def snapshot_size {Doc : Type} (es : Doc → Option (List Nat)) (doc : Doc) : Nat :=
  ((es doc).map List.length).getD 0

/-- Compacted snapshot export, `Room::export_snapshot`:
`doc.export(ExportMode::Snapshot).unwrap_or_default()`. -/
def export_snapshot {Doc : Type} (es : Doc → Option (List Nat)) (doc : Doc) : List Nat :=
  (es doc).getD []

/-- Error text of the size guard, `format!("Document size limit exceeded: {} + {} > {}", ..)`. -/
def size_limit_msg (cur len max : Nat) : String :=
  "Document size limit exceeded: " ++ toString cur ++ " + " ++ toString len
    ++ " > " ++ toString max

/-- Error text of a failed import, `format!("Failed to import update: {}", e)`. -/
def import_failed_msg (e : String) : String :=
  "Failed to import update: " ++ e

/-- The duplicate test of `Room::apply_update`:
`err_str.contains("already") || err_str.contains("outdated")`. -/
def is_duplicate_err (e : String) : Bool :=
  str_contains e "already" || str_contains e "outdated"

/-- `Room::apply_update` (main.rs lines 129-159): under the document's
exclusive lock, compute the projected size from the current exported
snapshot and the update length; reject over-budget updates before
importing; classify an import error reporting the update as already
incorporated or outdated as a duplicate (`Ok(false)`), any other import
error as a rejection. The pair's second component is the canonical
document after the call. -/
def Room.apply_update {Doc : Type} (es : Doc → Option (List Nat))
    (imp : Doc → List Nat → Except String Doc)
    (doc : Doc) (update : List Nat) (max_doc_size : Nat) :
    Except String Bool × Doc :=
  let current_size := snapshot_size es doc
  if max_doc_size < current_size + update.length then
    (Except.error (size_limit_msg current_size update.length max_doc_size), doc)
  else
    match imp doc update with
    | Except.ok doc2 => (Except.ok true, doc2)
    | Except.error e =>
      if is_duplicate_err e then (Except.ok false, doc)
      else (Except.error (import_failed_msg e), doc)

/-! ## Server: messages and the update handler -/

/-- Server-to-client message envelope (`ServerMsg`, main.rs lines 217-234).
The awareness payload is an opaque MessagePack value never inspected by
this core; it is modelled by an opaque index. -/
inductive ServerMsg
  | SyncResponse (d : List Nat)
  | Update (d : List Nat)
  | Awareness (d : Nat)
  | Error (code : String) (message : String)
deriving DecidableEq

/-- `build_update` (main.rs line 259): wrap update bytes in the envelope. -/
def build_update (data : List Nat) : ServerMsg :=
  ServerMsg.Update data

/-- `build_error` (main.rs line 271): wrap an error code and message. -/
def build_error (code message : String) : ServerMsg :=
  ServerMsg.Error code message

/-- An outbound action the connection handler performs: a broadcast on the
room channel tagged with the sender, or a direct unicast to this peer. -/
inductive PeerAction
  | broadcast (sender : Nat) (msg : ServerMsg)
  | direct (msg : ServerMsg)
deriving DecidableEq

/-- The `ClientMsg::Update` arm of `handle_connection` (main.rs lines
395-421): an applied update is broadcast on the room channel tagged with
the originating peer; a duplicate causes no action at all; a rejection is
answered with a direct `UPDATE_REJECTED` error to the sender only. -/
def handle_update_result (peer_id : Nat) (update_data : List Nat)
    (r : Except String Bool) : List PeerAction :=
  match r with
  | Except.ok true => [PeerAction.broadcast peer_id (build_update update_data)]
  | Except.ok false => []
  | Except.error e => [PeerAction.direct (build_error "UPDATE_REJECTED" e)]

/-- The no-echo filter of the per-peer send task (main.rs line 362):
a broadcast `(sender_id, msg)` is forwarded to this peer's socket only
when `sender_id != peer_id`. -/
def send_task_delivers (self_id sender_id : Nat) : Bool :=
  sender_id != self_id

/-- Deliveries a room broadcast produces: every subscribed peer's send task
receives `(sender_id, msg)` from the broadcast channel and forwards it
through the no-echo filter. -/
def broadcast_deliveries (subscribers : List Nat) (sender_id : Nat)
    (msg : ServerMsg) : List (Nat × ServerMsg) :=
  (subscribers.filter (fun p => send_task_delivers p sender_id)).map (fun p => (p, msg))

/-! ## Library instances used by concrete witnesses -/

/-- Sample export function: a document modelled by a number exports a
snapshot of that many bytes. -/
def sampleExport (d : Nat) : Option (List Nat) :=
  some (List.replicate d 0)

/-- Sample import function that always succeeds, growing the document. -/
def sampleImport (d : Nat) (update : List Nat) : Except String Nat :=
  Except.ok (d + update.length)

/-- Sample import function that always reports the update as outdated. -/
def dupImport (_ : Nat) (_ : List Nat) : Except String Nat :=
  Except.error "update is outdated"

/-! ## Theorems C1-C3 -/

/-- Claim C1: for every room state and update, if the projected size
(current exported-snapshot size plus update length) exceeds
`max_doc_size`, then `apply_update` rejects with the size-limit error and
the canonical document is untouched, so the exported snapshot is
byte-identical before and after the attempt. -/
theorem c1_size_guard {Doc : Type} (es : Doc → Option (List Nat))
    (imp : Doc → List Nat → Except String Doc) (doc : Doc) (update : List Nat)
    (max_doc_size : Nat)
    (h : max_doc_size < snapshot_size es doc + update.length) :
    (Room.apply_update es imp doc update max_doc_size).1
        = Except.error (size_limit_msg (snapshot_size es doc) update.length max_doc_size)
      ∧ (Room.apply_update es imp doc update max_doc_size).2 = doc
      ∧ export_snapshot es (Room.apply_update es imp doc update max_doc_size).2
          = export_snapshot es doc := by
  have hr : Room.apply_update es imp doc update max_doc_size
      = (Except.error (size_limit_msg (snapshot_size es doc) update.length max_doc_size),
          doc) := by
    unfold Room.apply_update
    simp only [if_pos h]
  exact ⟨by rw [hr], by rw [hr], by rw [hr]⟩

/-- Witness for C1 at a concrete oversized update. -/
theorem c1_size_guard_witness :
    (Room.apply_update sampleExport sampleImport 3 [1, 2, 3] 5).2 = 3 :=
  (c1_size_guard sampleExport sampleImport 3 [1, 2, 3] 5 (by decide)).2.1

/-- Claim C2: an update accepted as Applied from an originating peer is
broadcast tagged with that peer, and the relay's no-echo filter delivers
it to exactly the subscribed peers other than the originator: never back
to the originator, and to every other subscriber. -/
theorem c2_no_echo (subscribers : List Nat) (origin : Nat) (update_data : List Nat) :
    handle_update_result origin update_data (Except.ok true)
        = [PeerAction.broadcast origin (build_update update_data)]
      ∧ ∀ p : Nat,
          (p, build_update update_data)
              ∈ broadcast_deliveries subscribers origin (build_update update_data)
            ↔ (p ∈ subscribers ∧ p ≠ origin) := by
  constructor
  · rfl
  · intro p
    simp only [broadcast_deliveries, send_task_delivers, List.mem_map,
      List.mem_filter, bne_iff_ne, Prod.mk.injEq]
    constructor
    · rintro ⟨q, ⟨hq, hne⟩, hqp, -⟩
      subst hqp
      exact ⟨hq, fun h => hne h.symm⟩
    · rintro ⟨hp, hne⟩
      exact ⟨p, ⟨hp, fun h => hne h.symm⟩, rfl, trivial⟩

/-- Claim C3: when the size check passes and the merge library reports the
update as already incorporated or outdated, `apply_update` returns the
Duplicate result `Ok(false)` with the document unchanged, and the
connection handler performs no broadcast and sends no error for it. -/
theorem c3_duplicate_is_silent_success {Doc : Type} (es : Doc → Option (List Nat))
    (imp : Doc → List Nat → Except String Doc) (doc : Doc) (update : List Nat)
    (max_doc_size peer_id : Nat) (e : String)
    (h1 : snapshot_size es doc + update.length ≤ max_doc_size)
    (h2 : imp doc update = Except.error e)
    (h3 : is_duplicate_err e = true) :
    Room.apply_update es imp doc update max_doc_size = (Except.ok false, doc)
      ∧ handle_update_result peer_id update (Except.ok false) = [] := by
  refine ⟨?_, rfl⟩
  unfold Room.apply_update
  simp only [if_neg (Nat.not_lt.mpr h1), h2, if_pos h3]

/-- Witness for C3 at a concrete duplicate-reporting import. -/
theorem c3_duplicate_witness :
    Room.apply_update sampleExport dupImport 0 [] 10 = (Except.ok false, 0) :=
  (c3_duplicate_is_silent_success sampleExport dupImport 0 [] 10 7
    "update is outdated" (by decide) rfl (by decide)).1

/-! ## Server: peer registry and room lifecycle

`handle_connection` (main.rs lines 279-459) drives the registry: a
connection first checks the global room limit, then gets or creates the
room, then checks the per-room peer limit, and only then adds the peer;
on disconnect the peer is removed and an emptied room is dropped from the
registry at once. The registry `HashMap<String, Room>` is modelled as an
association list with unique keys (uniqueness is proved for reachable
states); each room is projected to its peer set, the component these
claims are about. -/

/-- Server configuration (`Config`, main.rs lines 46-52). -/
structure Config where
  bind_addr : String
  max_peers_per_room : Nat
  max_rooms : Nat
  max_doc_size : Nat

/-- The room registry: room id to the ids of its connected peers. -/
abbrev ServerRooms := List (String × List Nat)

/-- The peer set of a room, empty when the room is absent. -/
def peersOf : ServerRooms → String → List Nat
  | [], _ => []
  | e :: rest, rid => if e.1 = rid then e.2 else peersOf rest rid

/-- `Room::add_peer`: insert the peer into the named room's peer set. -/
def addPeer : ServerRooms → String → Nat → ServerRooms
  | [], _, _ => []
  | e :: rest, rid, pid =>
    if e.1 = rid then (e.1, e.2 ++ [pid]) :: rest else e :: addPeer rest rid pid

/-- `Room::remove_peer`: remove the peer from the named room's peer set. -/
def removePeer : ServerRooms → String → Nat → ServerRooms
  | [], _, _ => []
  | e :: rest, rid, pid =>
    if e.1 = rid then (e.1, e.2.erase pid) :: rest else e :: removePeer rest rid pid

/-- Removal of a registry entry, `rooms_write.remove(&room_id)`. -/
def removeRoom : ServerRooms → String → ServerRooms
  | [], _ => []
  | e :: rest, rid => if e.1 = rid then rest else e :: removeRoom rest rid

/-- Outcome of a connection attempt: rejected attempts drop the
connection before the peer is registered. -/
inductive JoinResult
  | accepted
  | rejected
deriving DecidableEq

/-- The join path of `handle_connection` (main.rs lines 306-341): reject
when the room would be newly created and the registry is at
`max_rooms` (`!rooms_read.contains_key(&room_id) && rooms_read.len() >=
config.max_rooms`); otherwise get or create the room
(`entry(..).or_insert_with(Room::new)`); reject when the room's peer
count is at `max_peers_per_room`; otherwise add the peer. -/
def connectStep (cfg : Config) (rooms : ServerRooms) (rid : String) (pid : Nat) :
    JoinResult × ServerRooms :=
  if rid ∉ rooms.map Prod.fst ∧ cfg.max_rooms ≤ rooms.length then
    (JoinResult.rejected, rooms)
  else
    let rooms1 := if rid ∈ rooms.map Prod.fst then rooms else (rid, []) :: rooms
    if cfg.max_peers_per_room ≤ (peersOf rooms1 rid).length then
      (JoinResult.rejected, rooms1)
    else
      (JoinResult.accepted, addPeer rooms1 rid pid)

/-- The cleanup path of `handle_connection` (main.rs lines 446-457):
remove the peer; if no peers remain, remove the room from the registry
immediately. -/
def disconnectStep (rooms : ServerRooms) (rid : String) (pid : Nat) : ServerRooms :=
  let rooms1 := removePeer rooms rid pid
  if (peersOf rooms1 rid).length = 0 then removeRoom rooms1 rid else rooms1

/-- Reachable registry states: from the empty registry, any sequence of
connection attempts and disconnects of connected peers. -/
inductive Reachable (cfg : Config) : ServerRooms → Prop
  | init : Reachable cfg []
  | connect (rid : String) (pid : Nat) {s : ServerRooms} :
      Reachable cfg s → Reachable cfg (connectStep cfg s rid pid).2
  | disconnect (rid : String) (pid : Nat) {s : ServerRooms} :
      Reachable cfg s → pid ∈ peersOf s rid → Reachable cfg (disconnectStep s rid pid)

/-- Registry invariant of the specification: every registered room has a
positive peer count. -/
def roomsInvariant (s : ServerRooms) : Prop :=
  ∀ e ∈ s, 0 < e.2.length

/-! ### Registry helper lemmas -/

/-- A room absent from the registry has no peers. -/
theorem peersOf_eq_nil_of_not_mem {s : ServerRooms} {rid : String}
    (h : rid ∉ s.map Prod.fst) : peersOf s rid = [] := by
  induction s with
  | nil => rfl
  | cons a rest ih =>
    have ha : a.1 ≠ rid := by
      intro he
      exact h (by simp [he])
    have hr : rid ∉ rest.map Prod.fst := fun hm => h (by simp [hm])
    simp only [peersOf, if_neg ha]
    exact ih hr

/-- Adding a peer does not change the registry's key list. -/
theorem keys_addPeer (s : ServerRooms) (rid : String) (pid : Nat) :
    (addPeer s rid pid).map Prod.fst = s.map Prod.fst := by
  induction s with
  | nil => rfl
  | cons a rest ih =>
    by_cases ha : a.1 = rid
    · simp [addPeer, if_pos ha]
    · simp [addPeer, if_neg ha, ih]

/-- Removing a peer does not change the registry's key list. -/
theorem keys_removePeer (s : ServerRooms) (rid : String) (pid : Nat) :
    (removePeer s rid pid).map Prod.fst = s.map Prod.fst := by
  induction s with
  | nil => rfl
  | cons a rest ih =>
    by_cases ha : a.1 = rid
    · simp [removePeer, if_pos ha]
    · simp [removePeer, if_neg ha, ih]

/-- Removing a room keeps a sublist of the registry's key list. -/
theorem keys_removeRoom_sublist (s : ServerRooms) (rid : String) :
    ((removeRoom s rid).map Prod.fst).Sublist (s.map Prod.fst) := by
  induction s with
  | nil => simp [removeRoom]
  | cons a rest ih =>
    by_cases ha : a.1 = rid
    · simp only [removeRoom, if_pos ha, List.map_cons]
      exact (List.sublist_cons_self _ _).trans (List.Sublist.refl _)
    · simp only [removeRoom, if_neg ha, List.map_cons]
      exact ih.cons₂ a.1

/-- Peer removal acts pointwise on the named room's peer set. -/
theorem peersOf_removePeer (s : ServerRooms) (rid : String) (pid : Nat) :
    peersOf (removePeer s rid pid) rid = (peersOf s rid).erase pid := by
  induction s with
  | nil => rfl
  | cons a rest ih =>
    by_cases ha : a.1 = rid
    · simp [removePeer, peersOf, if_pos ha]
    · simp [removePeer, peersOf, if_neg ha, ih]

/-- With unique keys, removing a room really removes it. -/
theorem not_mem_keys_removeRoom {s : ServerRooms} {rid : String}
    (h : (s.map Prod.fst).Nodup) : rid ∉ (removeRoom s rid).map Prod.fst := by
  induction s with
  | nil => simp [removeRoom]
  | cons a rest ih =>
    rw [List.map_cons, List.nodup_cons] at h
    by_cases ha : a.1 = rid
    · simp only [removeRoom, if_pos ha]
      intro hm
      exact h.1 (ha ▸ hm)
    · simp only [removeRoom, if_neg ha, List.map_cons]
      intro hm
      rcases List.mem_cons.mp hm with h1 | h1
      · exact ha h1.symm
      · exact ih h.2 h1

/-- Adding a peer preserves positivity of every room's peer count. -/
theorem invariant_addPeer (rid : String) (pid : Nat) :
    ∀ s : ServerRooms, roomsInvariant s → roomsInvariant (addPeer s rid pid) := by
  intro s
  induction s with
  | nil => exact fun h => h
  | cons a rest ih =>
    intro h
    have hrest : roomsInvariant rest := fun e he => h e (List.mem_cons_of_mem _ he)
    intro e he
    by_cases ha : a.1 = rid
    · simp only [addPeer, if_pos ha] at he
      rcases List.mem_cons.mp he with h1 | h1
      · subst h1
        simp
      · exact hrest _ h1
    · simp only [addPeer, if_neg ha] at he
      rcases List.mem_cons.mp he with h1 | h1
      · rw [h1]
        exact h a (List.mem_cons_self a rest)
      · exact ih hrest _ h1

/-- A disconnect preserves positivity of every room's peer count: the
room the peer left either keeps peers or is removed at once. -/
theorem invariant_disconnectStep (rid : String) (pid : Nat) :
    ∀ s : ServerRooms, roomsInvariant s → roomsInvariant (disconnectStep s rid pid) := by
  intro s
  induction s with
  | nil =>
    intro _ e he
    simp [disconnectStep, removePeer, peersOf, removeRoom] at he
  | cons a rest ih =>
    intro h
    have hrest : roomsInvariant rest := fun e he => h e (List.mem_cons_of_mem _ he)
    by_cases ha : a.1 = rid
    · by_cases hz : (a.2.erase pid).length = 0
      · have hstep : disconnectStep (a :: rest) rid pid = rest := by
          simp [disconnectStep, removePeer, peersOf, removeRoom, ha, hz]
        rw [hstep]
        exact hrest
      · have hstep : disconnectStep (a :: rest) rid pid = (a.1, a.2.erase pid) :: rest := by
          simp [disconnectStep, removePeer, peersOf, ha, hz]
        rw [hstep]
        intro e he
        rcases List.mem_cons.mp he with h1 | h1
        · subst h1
          exact Nat.pos_of_ne_zero hz
        · exact hrest _ h1
    · have hrp : removePeer (a :: rest) rid pid = a :: removePeer rest rid pid := by
        simp [removePeer, ha]
      by_cases hz : (peersOf (removePeer rest rid pid) rid).length = 0
      · have hstep : disconnectStep (a :: rest) rid pid
            = a :: removeRoom (removePeer rest rid pid) rid := by
          simp [disconnectStep, hrp, peersOf, ha, hz, removeRoom]
        have hd : disconnectStep rest rid pid = removeRoom (removePeer rest rid pid) rid := by
          simp [disconnectStep, hz]
        rw [hstep]
        intro e he
        rcases List.mem_cons.mp he with h1 | h1
        · rw [h1]
          exact h a (List.mem_cons_self a rest)
        · exact ih hrest _ (hd ▸ h1)
      · have hstep : disconnectStep (a :: rest) rid pid = a :: removePeer rest rid pid := by
          simp [disconnectStep, hrp, peersOf, ha, hz]
        have hd : disconnectStep rest rid pid = removePeer rest rid pid := by
          simp [disconnectStep, hz]
        rw [hstep]
        intro e he
        rcases List.mem_cons.mp he with h1 | h1
        · rw [h1]
          exact h a (List.mem_cons_self a rest)
        · exact ih hrest _ (hd ▸ h1)

/-- A connection attempt preserves positivity of every room's peer count,
provided the configured peer capacity is positive (a newly created room
immediately receives its first peer). -/
theorem invariant_connectStep (cfg : Config) (hp : 0 < cfg.max_peers_per_room)
    (rid : String) (pid : Nat) (s : ServerRooms) (h : roomsInvariant s) :
    roomsInvariant (connectStep cfg s rid pid).2 := by
  by_cases h1 : rid ∉ s.map Prod.fst ∧ cfg.max_rooms ≤ s.length
  · have hstep : (connectStep cfg s rid pid).2 = s := by
      simp [connectStep, h1]
    rw [hstep]
    exact h
  · by_cases hm : rid ∈ s.map Prod.fst
    · by_cases h2 : cfg.max_peers_per_room ≤ (peersOf s rid).length
      · have hstep : (connectStep cfg s rid pid).2 = s := by
          simp [connectStep, h1, hm, h2]
        rw [hstep]
        exact h
      · have hstep : (connectStep cfg s rid pid).2 = addPeer s rid pid := by
          simp [connectStep, h1, hm, h2]
        rw [hstep]
        exact invariant_addPeer rid pid s h
    · have hlen : ¬ cfg.max_rooms ≤ s.length := fun hb => h1 ⟨hm, hb⟩
      have hpo : peersOf ((rid, []) :: s) rid = [] := by
        simp [peersOf]
      have h2 : ¬ cfg.max_peers_per_room ≤ (peersOf ((rid, []) :: s) rid).length := by
        rw [hpo]
        exact Nat.not_le.mpr hp
      have hadd : addPeer ((rid, []) :: s) rid pid = (rid, [pid]) :: s := by
        simp [addPeer]
      have hstep : (connectStep cfg s rid pid).2 = (rid, [pid]) :: s := by
        simp [connectStep, hm, hlen, h2, hadd]
      rw [hstep]
      intro e he
      rcases List.mem_cons.mp he with he1 | he1
      · rw [he1]
        simp
      · exact h _ he1

/-- A connection attempt preserves uniqueness of registry keys. -/
theorem nodup_connectStep (cfg : Config) (rid : String) (pid : Nat) (s : ServerRooms)
    (h : (s.map Prod.fst).Nodup) : ((connectStep cfg s rid pid).2.map Prod.fst).Nodup := by
  by_cases h1 : rid ∉ s.map Prod.fst ∧ cfg.max_rooms ≤ s.length
  · have hstep : (connectStep cfg s rid pid).2 = s := by
      simp [connectStep, h1]
    rw [hstep]
    exact h
  · by_cases hm : rid ∈ s.map Prod.fst
    · by_cases h2 : cfg.max_peers_per_room ≤ (peersOf s rid).length
      · have hstep : (connectStep cfg s rid pid).2 = s := by
          simp [connectStep, h1, hm, h2]
        rw [hstep]
        exact h
      · have hstep : (connectStep cfg s rid pid).2 = addPeer s rid pid := by
          simp [connectStep, h1, hm, h2]
        rw [hstep, keys_addPeer]
        exact h
    · have hlen : ¬ cfg.max_rooms ≤ s.length := fun hb => h1 ⟨hm, hb⟩
      have hcons : (((rid, []) :: s).map Prod.fst).Nodup := by
        rw [List.map_cons, List.nodup_cons]
        exact ⟨hm, h⟩
      by_cases h2 : cfg.max_peers_per_room ≤ (peersOf ((rid, []) :: s) rid).length
      · have hstep : (connectStep cfg s rid pid).2 = (rid, []) :: s := by
          simp [connectStep, hm, hlen, h2]
        rw [hstep]
        exact hcons
      · have hstep : (connectStep cfg s rid pid).2 = addPeer ((rid, []) :: s) rid pid := by
          simp [connectStep, hm, hlen, h2]
        rw [hstep, keys_addPeer]
        exact hcons

/-- A disconnect preserves uniqueness of registry keys. -/
theorem nodup_disconnectStep (rid : String) (pid : Nat) (s : ServerRooms)
    (h : (s.map Prod.fst).Nodup) : ((disconnectStep s rid pid).map Prod.fst).Nodup := by
  have h1 : ((removePeer s rid pid).map Prod.fst).Nodup := by
    rw [keys_removePeer]
    exact h
  by_cases hz : (peersOf (removePeer s rid pid) rid).length = 0
  · have hstep : disconnectStep s rid pid = removeRoom (removePeer s rid pid) rid := by
      simp [disconnectStep, hz]
    rw [hstep]
    exact List.Nodup.sublist (keys_removeRoom_sublist _ _) h1
  · have hstep : disconnectStep s rid pid = removePeer s rid pid := by
      simp [disconnectStep, hz]
    rw [hstep]
    exact h1

/-- Every reachable registry state has unique room keys. -/
theorem reachable_nodup {cfg : Config} {s : ServerRooms} (h : Reachable cfg s) :
    (s.map Prod.fst).Nodup := by
  induction h with
  | init => simp
  | connect rid pid hr ih => exact nodup_connectStep _ rid pid _ ih
  | disconnect rid pid hr hmem ih => exact nodup_disconnectStep rid pid _ ih

/-- Every reachable registry state satisfies the peer-count invariant,
provided the configured peer capacity is positive. -/
theorem reachable_invariant {cfg : Config} (hp : 0 < cfg.max_peers_per_room)
    {s : ServerRooms} (h : Reachable cfg s) : roomsInvariant s := by
  induction h with
  | init => intro e he; cases he
  | connect rid pid hr ih => exact invariant_connectStep cfg hp rid pid _ ih
  | disconnect rid pid hr hmem ih => exact invariant_disconnectStep rid pid _ ih

/-- Consing a fresh room changes no room's peer set. -/
theorem peersOf_cons_new {s : ServerRooms} {rid : String}
    (h : rid ∉ s.map Prod.fst) (r : String) :
    peersOf ((rid, []) :: s) r = peersOf s r := by
  by_cases hr : rid = r
  · subst hr
    simp [peersOf, peersOf_eq_nil_of_not_mem h]
  · simp [peersOf, hr]

/-! ## Theorems C4-C5 -/

/-- Claim C4, amended: provided the configured per-room peer capacity is
at least 1, in every reachable server state every room present in the
registry has a peer count greater than zero; a room is created on its
first peer's successful connection (below the room limit), and when the
last peer disconnects the room is removed from the registry immediately,
with no grace period. -/
theorem c4_room_lifecycle (cfg : Config) (hp : 0 < cfg.max_peers_per_room) :
    (∀ s : ServerRooms, Reachable cfg s → roomsInvariant s)
      ∧ (∀ (s : ServerRooms) (rid : String) (pid : Nat),
          rid ∉ s.map Prod.fst → s.length < cfg.max_rooms →
            (connectStep cfg s rid pid).1 = JoinResult.accepted
              ∧ peersOf (connectStep cfg s rid pid).2 rid = [pid])
      ∧ (∀ (s : ServerRooms) (rid : String) (pid : Nat),
          Reachable cfg s → peersOf s rid = [pid] →
            rid ∉ (disconnectStep s rid pid).map Prod.fst) := by
  refine ⟨fun s hr => reachable_invariant hp hr, ?_, ?_⟩
  · intro s rid pid hm hlen
    have hlen' : ¬ cfg.max_rooms ≤ s.length := Nat.not_le.mpr hlen
    have hpo : peersOf ((rid, []) :: s) rid = [] := by
      simp [peersOf]
    have h2 : ¬ cfg.max_peers_per_room ≤ (peersOf ((rid, []) :: s) rid).length := by
      rw [hpo]
      exact Nat.not_le.mpr hp
    have hadd : addPeer ((rid, []) :: s) rid pid = (rid, [pid]) :: s := by
      simp [addPeer]
    have hstep : connectStep cfg s rid pid = (JoinResult.accepted, (rid, [pid]) :: s) := by
      simp [connectStep, hm, hlen', h2, hadd]
    rw [hstep]
    exact ⟨rfl, by simp [peersOf]⟩
  · intro s rid pid hr hpeers
    have hz : (peersOf (removePeer s rid pid) rid).length = 0 := by
      rw [peersOf_removePeer, hpeers]
      simp
    have hstep : disconnectStep s rid pid = removeRoom (removePeer s rid pid) rid := by
      simp [disconnectStep, hz]
    rw [hstep]
    have hnd : ((removePeer s rid pid).map Prod.fst).Nodup := by
      rw [keys_removePeer]
      exact reachable_nodup hr
    exact not_mem_keys_removeRoom hnd

/-- Counterexample to claim C4 as stated: with a configured
`max_peers_per_room` of 0 (a value the configuration accepts), a single
connection attempt creates the room, is then rejected by the peer-limit
check, and leaves an empty room registered: the state is reachable, the
room is present, and its peer count is zero. -/
theorem c4_counterexample :
    Reachable ⟨"127.0.0.1:8080", 0, 1, 10485760⟩ [("a", [])]
      ∧ "a" ∈ [("a", ([] : List Nat))].map Prod.fst
      ∧ (peersOf [("a", [])] "a").length = 0 := by
  refine ⟨?_, by simp, by decide⟩
  have h1 := Reachable.connect "a" 0
    (@Reachable.init ⟨"127.0.0.1:8080", 0, 1, 10485760⟩)
  have he : (connectStep ⟨"127.0.0.1:8080", 0, 1, 10485760⟩ [] "a" 0).2 = [("a", [])] := by
    decide
  rwa [he] at h1

/-- Witness for C4's amended theorem at a concrete reachable state under
the default configuration. -/
theorem c4_room_lifecycle_witness :
    0 < (peersOf [("room", [1])] "room").length := by
  have hreach : Reachable ⟨"127.0.0.1:8080", 8, 1000000, 10485760⟩ [("room", [1])] := by
    have h1 := Reachable.connect "room" 1
      (@Reachable.init ⟨"127.0.0.1:8080", 8, 1000000, 10485760⟩)
    have he : (connectStep ⟨"127.0.0.1:8080", 8, 1000000, 10485760⟩ [] "room" 1).2
        = [("room", [1])] := by
      decide
    rwa [he] at h1
  have hinv := (c4_room_lifecycle ⟨"127.0.0.1:8080", 8, 1000000, 10485760⟩ (by decide)).1
    [("room", [1])] hreach ("room", [1]) (by simp)
  have hpe : peersOf [("room", [1])] "room" = [1] := by decide
  rw [hpe]
  exact hinv

/-- Claim C5: a join attempt is rejected when the room's peer count is
already at the configured maximum, or the room would be newly created
while the registry already holds the configured maximum of rooms; both
checks run before any peer-set mutation, so no room's peer set changes. -/
theorem c5_join_limits (cfg : Config) (s : ServerRooms) (rid : String) (pid : Nat)
    (h : cfg.max_peers_per_room ≤ (peersOf s rid).length
        ∨ (rid ∉ s.map Prod.fst ∧ cfg.max_rooms ≤ s.length)) :
    (connectStep cfg s rid pid).1 = JoinResult.rejected
      ∧ ∀ r : String, peersOf (connectStep cfg s rid pid).2 r = peersOf s r := by
  by_cases h1 : rid ∉ s.map Prod.fst ∧ cfg.max_rooms ≤ s.length
  · have hstep : connectStep cfg s rid pid = (JoinResult.rejected, s) := by
      simp [connectStep, h1]
    rw [hstep]
    exact ⟨rfl, fun r => rfl⟩
  · by_cases hm : rid ∈ s.map Prod.fst
    · have h2 : cfg.max_peers_per_room ≤ (peersOf s rid).length := by
        rcases h with h | h
        · exact h
        · exact absurd hm h.1
      have hstep : connectStep cfg s rid pid = (JoinResult.rejected, s) := by
        simp [connectStep, h1, hm, h2]
      rw [hstep]
      exact ⟨rfl, fun r => rfl⟩
    · have hlen : ¬ cfg.max_rooms ≤ s.length := fun hb => h1 ⟨hm, hb⟩
      have h2 : cfg.max_peers_per_room ≤ (peersOf ((rid, []) :: s) rid).length := by
        rcases h with h | h
        · rw [peersOf_eq_nil_of_not_mem hm] at h
          simpa [peersOf] using h
        · exact absurd h.2 hlen
      have hstep : connectStep cfg s rid pid = (JoinResult.rejected, (rid, []) :: s) := by
        simp [connectStep, hm, hlen, h2]
      rw [hstep]
      exact ⟨rfl, peersOf_cons_new hm⟩

/-- Witness for C5: a ninth connection to a room already holding eight
peers under the default configuration is rejected. -/
theorem c5_join_limits_witness :
    (connectStep ⟨"127.0.0.1:8080", 8, 1000000, 10485760⟩
        [("r", [1, 2, 3, 4, 5, 6, 7, 8])] "r" 9).1 = JoinResult.rejected :=
  (c5_join_limits ⟨"127.0.0.1:8080", 8, 1000000, 10485760⟩
    [("r", [1, 2, 3, 4, 5, 6, 7, 8])] "r" 9 (Or.inl (by decide))).1

/-! ## Client: CRDT document wrapper (src/rust/tandem-ffi/src/crdt.rs)

The wrapper owns one instance of the external replicated text structure.
That structure is modelled at the interface the specification describes:
a lazily created root "content" text container holding a byte string,
byte-indexed `insert_utf8`/`delete_utf8`/`len_utf8`, and a subscription
that the library invokes on every commit, import and checkout with the
trigger kind and the container diffs of that transaction. The merge
algorithm itself is out of scope: a remote update is modelled by whether
it references the root container, the text transformation the merge
performs, and the container diffs the library reports for the import. -/

/-- Trigger kind of a merge event (`loro::EventTriggerKind`): a local
commit, a remote import, or a checkout (time travel). -/
inductive EventTriggerKind
  | Local
  | Import
  | Checkout
deriving DecidableEq

/-- A single operation of the Quill delta format (`TextDelta`), as the
external library reports it (attributes elided, as in the source's
`Retain { retain, .. }` patterns). -/
inductive TextDelta
  | Retain (retain : Nat)
  | Insert (insert : String)
  | Delete (delete : Nat)
deriving DecidableEq

/-- `TextDeltaEvent` (crdt.rs lines 24-31), the FFI-facing delta event. -/
inductive TextDeltaEvent
  | Retain (len : Nat)
  | Insert (text : String)
  | Delete (len : Nat)
deriving DecidableEq

/-- The `From<&TextDelta>` conversion (crdt.rs lines 53-63). -/
def TextDeltaEvent.fromTextDelta : TextDelta → TextDeltaEvent
  | TextDelta.Retain r => TextDeltaEvent.Retain r
  | TextDelta.Insert s => TextDeltaEvent.Insert s
  | TextDelta.Delete d => TextDeltaEvent.Delete d

/-- A container identifier (`loro::ContainerID`): a named root container
or a normal (nested) container. -/
inductive ContainerIDM
  | Root (name : String)
  | Normal (idx : Nat)
deriving DecidableEq

/-- The diff carried for one container (`loro::event::Diff`): a text
delta list for text containers, anything else for other kinds. -/
inductive DiffM
  | Text (deltas : List TextDelta)
  | Other
deriving DecidableEq

/-- One entry of a merge event's `events` list: the target container and
its diff. -/
structure ContainerDiffM where
  target : ContainerIDM
  diff : DiffM
deriving DecidableEq

/-- Body of the subscription's per-container loop (crdt.rs lines
115-141): diffs not targeting the root "content" text container are
skipped; a text diff's deltas are converted and, when non-empty,
appended to the queue. -/
def subscription_fold_step (acc : List TextDeltaEvent) (cd : ContainerDiffM) :
    List TextDeltaEvent :=
  let is_content :=
    match cd.target with
    | ContainerIDM.Root name => name == "content"
    | ContainerIDM.Normal _ => false
  if is_content then
    match cd.diff with
    | DiffM.Text deltas =>
      let delta_events := deltas.map TextDeltaEvent.fromTextDelta
      if delta_events.isEmpty then acc else acc ++ delta_events
    | DiffM.Other => acc
  else acc

/-- The subscription callback registered by `CrdtDoc::setup_subscription`
(crdt.rs lines 106-143), as a function from the event's trigger kind,
its container diffs and the current pending queue to the new pending
queue: events not triggered by an import are ignored; otherwise every
container diff runs through the loop body above. -/
def subscription_callback (trigger : EventTriggerKind) (events : List ContainerDiffM)
    (pending : List TextDeltaEvent) : List TextDeltaEvent :=
  if trigger = EventTriggerKind.Import then
    events.foldl subscription_fold_step pending
  else pending

/-- The state of the external replicated text document as this wrapper
observes it: whether the root "content" container exists, and the byte
string it holds. -/
structure LoroDocM where
  contentExists : Bool
  content : List Nat
deriving DecidableEq

/-- Byte-range deletion, `LoroText::delete_utf8(start, len)`. -/
def delete_utf8 (text : List Nat) (start len : Nat) : List Nat :=
  text.take start ++ text.drop (start + len)

/-- Byte-position insertion, `LoroText::insert_utf8(pos, s)`. -/
def insert_utf8 (text : List Nat) (pos : Nat) (s : List Nat) : List Nat :=
  text.take pos ++ s ++ text.drop pos

/-- The client document wrapper (`struct CrdtDoc`, crdt.rs lines 69-82):
the replicated document, the pending delta queue the subscription feeds,
the local-edit flag (set and cleared around local mutations, read
nowhere), and the last known text. -/
structure CrdtDoc where
  id : Nat
  doc : LoroDocM
  pending : List TextDeltaEvent
  applying_local : Bool
  last_text : List Nat

/-- `CrdtDoc::new` (crdt.rs lines 85-103): an empty document with no
containers initialised, an empty pending queue and the subscription
installed. -/
def CrdtDoc.new (id : Nat) : CrdtDoc :=
  { id := id
    doc := { contentExists := false, content := [] }
    pending := []
    applying_local := false
    last_text := [] }

/-- `CrdtDoc::has_content` (crdt.rs lines 146-151): whether the root
"content" container exists in the document. -/
def CrdtDoc.has_content (d : CrdtDoc) : Bool :=
  d.doc.contentExists

/-- `CrdtDoc::get_text` (crdt.rs lines 160-167): the container's text
when it exists, the empty string otherwise (the read never creates the
container). -/
def CrdtDoc.get_text (d : CrdtDoc) : List Nat :=
  if d.has_content then d.doc.content else []

/-- `CrdtDoc::set_text` (crdt.rs lines 169-198): one atomic transaction
that creates the container if needed (`text_for_write`), deletes the full
existing range, inserts the new content and commits once. The commit
invokes the subscription with a `Local` trigger and whatever container
diffs the library computes for the transaction; `commitEvents` stands for
those diffs, universally quantified in the theorems. -/
def CrdtDoc.set_text (d : CrdtDoc) (content : List Nat)
    (commitEvents : List ContainerDiffM) : CrdtDoc :=
  let d1 := { d with applying_local := true }
  let doc1 : LoroDocM := { d1.doc with contentExists := true }
  let current_len := doc1.content.length
  let doc2 :=
    if 0 < current_len then
      { doc1 with content := delete_utf8 doc1.content 0 current_len }
    else doc1
  let doc3 :=
    if content ≠ [] then
      { doc2 with content := insert_utf8 doc2.content 0 content }
    else doc2
  { d1 with
      doc := doc3
      pending := subscription_callback EventTriggerKind.Local commitEvents d1.pending
      last_text := content
      applying_local := false }

/-- `CrdtDoc::apply_edit` (crdt.rs lines 200-234): clamp `start_byte` and
`end_byte` into `[0, current_length]`, delete the clamped range when
non-empty, insert the new text at the clamped start, and commit once
(again invoking the subscription with a `Local` trigger). -/
def CrdtDoc.apply_edit (d : CrdtDoc) (start_byte end_byte : Nat) (new_text : List Nat)
    (commitEvents : List ContainerDiffM) : CrdtDoc :=
  let d1 := { d with applying_local := true }
  let doc1 : LoroDocM := { d1.doc with contentExists := true }
  let current_len := doc1.content.length
  let start := min start_byte current_len
  let stop := min end_byte current_len
  let doc2 :=
    if start < stop then
      { doc1 with content := delete_utf8 doc1.content start (stop - start) }
    else doc1
  let doc3 :=
    if new_text ≠ [] then
      { doc2 with content := insert_utf8 doc2.content start new_text }
    else doc2
  { d1 with
      doc := doc3
      pending := subscription_callback EventTriggerKind.Local commitEvents d1.pending
      last_text := if doc3.contentExists then doc3.content else []
      applying_local := false }

/-- A remote update at the interface the specification gives the external
merge library: whether it references the root "content" container, the
text transformation the merge performs on that container, and the
container diffs the library reports to subscribers for the import. -/
structure RemoteUpdate where
  touchesContent : Bool
  merge : List Nat → List Nat
  events : List ContainerDiffM

/-- `LoroDoc::import` at the specified interface: merging the update
creates the root container exactly when the update references it, and
rewrites the container's text by the merge. -/
def LoroDocM.importUpdate (doc : LoroDocM) (u : RemoteUpdate) : LoroDocM :=
  { contentExists := doc.contentExists || u.touchesContent
    content := if u.touchesContent then u.merge doc.content else doc.content }

/-- The import path of `CrdtDoc::apply_update_b64` (crdt.rs lines
246-271), past the transport decoding that belongs to the external
base64 crate: `doc.import` triggers the subscription with an `Import`
trigger and the import's container diffs, queueing any text deltas of
the root "content" container; `last_text` is then refreshed. -/
def CrdtDoc.apply_remote_update (d : CrdtDoc) (u : RemoteUpdate) : CrdtDoc :=
  let doc1 := d.doc.importUpdate u
  let pending1 := subscription_callback EventTriggerKind.Import u.events d.pending
  { d with
      doc := doc1
      pending := pending1
      last_text := if doc1.contentExists then doc1.content else [] }

/-- `CrdtDoc::poll_deltas` (crdt.rs lines 313-316): destructively drain
the pending queue, returning its contents in order. -/
def CrdtDoc.poll_deltas (d : CrdtDoc) : List TextDeltaEvent × CrdtDoc :=
  (d.pending, { d with pending := [] })

/-- `CrdtDoc::clear_pending_deltas` (crdt.rs lines 318-321): discard all
queued deltas without delivering them. -/
def CrdtDoc.clear_pending_deltas (d : CrdtDoc) : CrdtDoc :=
  { d with pending := [] }

/-! ## Theorems C6-C9 -/

/-- Claim C6: the root text container is not created at construction;
`get_text` returns the empty string whenever the container was never
created; the container comes into existence exactly on a write
(`set_text`, `apply_edit`) or on a remote import that references it, and
an import that does not reference it leaves its existence unchanged. -/
theorem c6_lazy_root_container :
    (∀ id : Nat, (CrdtDoc.new id).doc.contentExists = false)
      ∧ (∀ d : CrdtDoc, d.doc.contentExists = false → CrdtDoc.get_text d = [])
      ∧ (∀ (d : CrdtDoc) (c : List Nat) (ev : List ContainerDiffM),
          (CrdtDoc.set_text d c ev).doc.contentExists = true)
      ∧ (∀ (d : CrdtDoc) (a b : Nat) (t : List Nat) (ev : List ContainerDiffM),
          (CrdtDoc.apply_edit d a b t ev).doc.contentExists = true)
      ∧ (∀ (d : CrdtDoc) (u : RemoteUpdate),
          (CrdtDoc.apply_remote_update d u).doc.contentExists
            = (d.doc.contentExists || u.touchesContent)) := by
  refine ⟨fun _ => rfl, ?_, ?_, ?_, fun d u => rfl⟩
  · intro d hd
    unfold CrdtDoc.get_text CrdtDoc.has_content
    rw [hd]
    rfl
  · intro d c ev
    unfold CrdtDoc.set_text
    by_cases h1 : 0 < d.doc.content.length
    · by_cases h2 : c ≠ [] <;> simp [h1, h2]
    · by_cases h2 : c ≠ [] <;> simp [h1, h2]
  · intro d a b t ev
    unfold CrdtDoc.apply_edit
    by_cases h1 : min a d.doc.content.length < min b d.doc.content.length
    · by_cases h2 : t ≠ [] <;> simp [h1, h2]
    · by_cases h2 : t ≠ [] <;> simp [h1, h2]

/-- Witness for C6: a freshly constructed document reads as empty. -/
theorem c6_lazy_root_container_witness :
    CrdtDoc.get_text (CrdtDoc.new 0) = [] :=
  c6_lazy_root_container.2.1 (CrdtDoc.new 0) rfl

/-- Claim C7: `apply_edit` clamps its offsets into `[0, current_length]`,
so any end offset beyond the current length produces exactly the state
that end = current_length produces. -/
theorem c7_apply_edit_clamps (d : CrdtDoc) (start_byte end_byte : Nat)
    (new_text : List Nat) (commitEvents : List ContainerDiffM)
    (h : d.doc.content.length < end_byte) :
    CrdtDoc.apply_edit d start_byte end_byte new_text commitEvents
      = CrdtDoc.apply_edit d start_byte d.doc.content.length new_text commitEvents := by
  simp only [CrdtDoc.apply_edit]
  rw [Nat.min_eq_right (Nat.le_of_lt h), Nat.min_self]

/-- Concrete document used by client-side witnesses: the root container
exists and holds three bytes. -/
def sampleCrdtDoc : CrdtDoc :=
  { id := 1
    doc := { contentExists := true, content := [104, 105, 33] }
    pending := []
    applying_local := false
    last_text := [104, 105, 33] }

/-- Witness for C7: editing with end offset 99 on a three-byte document
equals editing with end offset 3. -/
theorem c7_apply_edit_clamps_witness :
    CrdtDoc.apply_edit sampleCrdtDoc 1 99 [120] []
      = CrdtDoc.apply_edit sampleCrdtDoc 1 sampleCrdtDoc.doc.content.length [120] [] :=
  c7_apply_edit_clamps sampleCrdtDoc 1 99 [120] [] (by decide)

/-- Claim C8: no local mutation appends to the pending delta queue:
`set_text` and `apply_edit` commit through the subscription with a
`Local` trigger, and the subscription forwards only `Import`-triggered
events, ignoring local commits and checkouts, whatever diffs the library
reports. -/
theorem c8_local_edits_not_queued :
    (∀ (d : CrdtDoc) (c : List Nat) (ev : List ContainerDiffM),
        (CrdtDoc.set_text d c ev).pending = d.pending)
      ∧ (∀ (d : CrdtDoc) (a b : Nat) (t : List Nat) (ev : List ContainerDiffM),
          (CrdtDoc.apply_edit d a b t ev).pending = d.pending)
      ∧ (∀ (ev : List ContainerDiffM) (q : List TextDeltaEvent),
          subscription_callback EventTriggerKind.Local ev q = q)
      ∧ (∀ (ev : List ContainerDiffM) (q : List TextDeltaEvent),
          subscription_callback EventTriggerKind.Checkout ev q = q) := by
  refine ⟨fun d c ev => rfl, fun d a b t ev => rfl, fun ev q => rfl, fun ev q => rfl⟩

/-- A fold whose step appends to its accumulator distributes over the
initial queue. -/
theorem foldl_step_append {α β : Type} (f : List α → β → List α)
    (hf : ∀ (q : List α) (c : β), f q c = q ++ f [] c) :
    ∀ (l : List β) (q : List α), l.foldl f q = q ++ l.foldl f [] := by
  intro l
  induction l with
  | nil => intro q; simp
  | cons c rest ih =>
    intro q
    simp only [List.foldl_cons]
    rw [ih (f q c), hf q c, ih (f [] c), List.append_assoc]

/-- The subscription's loop body only ever appends at the tail of the
queue. -/
theorem subscription_fold_step_append (q : List TextDeltaEvent) (cd : ContainerDiffM) :
    subscription_fold_step q cd = q ++ subscription_fold_step [] cd := by
  rcases cd with ⟨target, diff⟩
  cases target with
  | Root name =>
    by_cases hn : name == "content"
    · cases diff with
      | Text deltas =>
        by_cases he : (deltas.map TextDeltaEvent.fromTextDelta).isEmpty
        · simp [subscription_fold_step, hn, he]
        · simp [subscription_fold_step, hn, he]
      | Other => simp [subscription_fold_step, hn]
    · simp [subscription_fold_step, hn]
  | Normal idx => simp [subscription_fold_step]

/-- Claim C9: `poll` is a destructive drain returning the whole queue in
FIFO order and leaving it empty, so a second poll with no intervening
remote update returns nothing; `clear` discards all queued deltas; and imports
append new deltas at the tail, preserving queue order. -/
theorem c9_poll_drains_fifo :
    (∀ d : CrdtDoc, (CrdtDoc.poll_deltas d).1 = d.pending)
      ∧ (∀ d : CrdtDoc, (CrdtDoc.poll_deltas d).2.pending = [])
      ∧ (∀ d : CrdtDoc, (CrdtDoc.poll_deltas (CrdtDoc.poll_deltas d).2).1 = [])
      ∧ (∀ d : CrdtDoc, (CrdtDoc.clear_pending_deltas d).pending = [])
      ∧ (∀ (ev : List ContainerDiffM) (q : List TextDeltaEvent),
          subscription_callback EventTriggerKind.Import ev q
            = q ++ subscription_callback EventTriggerKind.Import ev []) := by
  refine ⟨fun d => rfl, fun d => rfl, fun d => rfl, fun d => rfl, ?_⟩
  intro ev q
  show ev.foldl subscription_fold_step q = q ++ ev.foldl subscription_fold_step []
  exact foldl_step_append subscription_fold_step subscription_fold_step_append ev q

/-! ## Client: FFI document registry (crdt.rs lines 329-532)

The global `DOCS` registry maps parsed UUIDs to documents; it is modelled
as an association list keyed by the parsed id. Every FFI operation first
parses its `doc_id` string (`Uuid::parse_str`, an external function held
abstract as `parse`) and then looks the id up, returning a neutral
default and touching nothing when either step fails. Library-owned
payload computations of the happy path (version-vector and update
encodings, the external base64 transport) are likewise passed in as
oracle functions; the registry guard logic is the repository's. -/

/-- The document registry, `DOCS`. -/
abbrev Registry := List (Nat × CrdtDoc)

/-- `DOCS.lock().get(&id)`. -/
def lookup_doc (docs : Registry) (id : Nat) : Option CrdtDoc :=
  (docs.find? (fun e => e.1 == id)).map (fun e => e.2)

/-- In-place mutation of a registry entry (`DOCS.lock().get_mut(&id)`
followed by the mutation). -/
def update_doc (docs : Registry) (id : Nat) (d : CrdtDoc) : Registry :=
  docs.map (fun e => if e.1 = id then (e.1, d) else e)

/-- `doc_get_text` (crdt.rs lines 354-371): empty string when the id does
not parse or the document is missing. -/
def doc_get_text (parse : String → Option Nat) (docs : Registry) (doc_id : String) :
    List Nat × Registry :=
  match parse doc_id with
  | none => ([], docs)
  | some id =>
    match lookup_doc docs id with
    | some d => (CrdtDoc.get_text d, docs)
    | none => ([], docs)

/-- `doc_state_vector` (crdt.rs lines 416-432): the encoded version
vector of the document (`vv_encode`, the external library's encoding of
the causal frontier), or the empty string. -/
def doc_state_vector (parse : String → Option Nat) (vv_encode : CrdtDoc → List Nat)
    (docs : Registry) (doc_id : String) : List Nat × Registry :=
  match parse doc_id with
  | none => ([], docs)
  | some id =>
    match lookup_doc docs id with
    | some d => (vv_encode d, docs)
    | none => ([], docs)

/-- `doc_encode_update` (crdt.rs lines 455-471): the diff against a
remote version vector (`enc_update`, the external library's export), or
the empty string. -/
def doc_encode_update (parse : String → Option Nat)
    (enc_update : CrdtDoc → String → List Nat) (docs : Registry)
    (doc_id remote_vv : String) : List Nat × Registry :=
  match parse doc_id with
  | none => ([], docs)
  | some id =>
    match lookup_doc docs id with
    | some d => (enc_update d remote_vv, docs)
    | none => ([], docs)

/-- `doc_encode_full_state` (crdt.rs lines 474-490): the full-state
export (`enc_full`, the external library's export), or the empty
string. -/
def doc_encode_full_state (parse : String → Option Nat)
    (enc_full : CrdtDoc → List Nat) (docs : Registry) (doc_id : String) :
    List Nat × Registry :=
  match parse doc_id with
  | none => ([], docs)
  | some id =>
    match lookup_doc docs id with
    | some d => (enc_full d, docs)
    | none => ([], docs)

/-- `doc_apply_update` (crdt.rs lines 435-452): applies a remote update
to the named document, returning false and changing nothing when the id
does not parse or the document is missing. -/
def doc_apply_update (parse : String → Option Nat) (docs : Registry)
    (doc_id : String) (u : RemoteUpdate) : Bool × Registry :=
  match parse doc_id with
  | none => (false, docs)
  | some id =>
    match lookup_doc docs id with
    | some d => (true, update_doc docs id (CrdtDoc.apply_remote_update d u))
    | none => (false, docs)

/-- `doc_poll_deltas` (crdt.rs lines 495-514): drains the named
document's pending deltas, returning the empty list and changing nothing
when the id does not parse or the document is missing. -/
def doc_poll_deltas (parse : String → Option Nat) (docs : Registry)
    (doc_id : String) : List TextDeltaEvent × Registry :=
  match parse doc_id with
  | none => ([], docs)
  | some id =>
    match lookup_doc docs id with
    | some d =>
      ((CrdtDoc.poll_deltas d).1, update_doc docs id (CrdtDoc.poll_deltas d).2)
    | none => ([], docs)

/-! ## Theorem C10 -/

/-- Claim C10: for a `doc_id` that does not parse as a UUID or is not in
the registry, every FFI document operation is a safe no-op: it returns
its neutral default and leaves the registry, hence every existing
document, unchanged. -/
theorem c10_missing_doc_noop (parse : String → Option Nat)
    (vv_encode : CrdtDoc → List Nat) (enc_update : CrdtDoc → String → List Nat)
    (enc_full : CrdtDoc → List Nat) (docs : Registry) (doc_id remote_vv : String)
    (u : RemoteUpdate)
    (h : (parse doc_id).bind (lookup_doc docs) = none) :
    doc_get_text parse docs doc_id = ([], docs)
      ∧ doc_state_vector parse vv_encode docs doc_id = ([], docs)
      ∧ doc_encode_update parse enc_update docs doc_id remote_vv = ([], docs)
      ∧ doc_encode_full_state parse enc_full docs doc_id = ([], docs)
      ∧ doc_apply_update parse docs doc_id u = (false, docs)
      ∧ doc_poll_deltas parse docs doc_id = ([], docs) := by
  rcases hp : parse doc_id with _ | id
  · refine ⟨?_, ?_, ?_, ?_, ?_, ?_⟩ <;>
      simp [doc_get_text, doc_state_vector, doc_encode_update,
        doc_encode_full_state, doc_apply_update, doc_poll_deltas, hp]
  · have hl : lookup_doc docs id = none := by
      rw [hp] at h
      exact h
    refine ⟨?_, ?_, ?_, ?_, ?_, ?_⟩ <;>
      simp [doc_get_text, doc_state_vector, doc_encode_update,
        doc_encode_full_state, doc_apply_update, doc_poll_deltas, hp, hl]

/-- Parser that accepts nothing, standing in for `Uuid::parse_str` on a
malformed id. -/
def no_parse : String → Option Nat :=
  fun _ => none

/-- Trivial byte-producing oracle for the encode operations. -/
def zero_bytes : CrdtDoc → List Nat :=
  fun _ => []

/-- Trivial diff-export oracle for `doc_encode_update`. -/
def zero_diff : CrdtDoc → String → List Nat :=
  fun _ _ => []

/-- Remote update used by concrete witnesses: references the root
container, keeps the text unchanged and reports no diffs. -/
def sampleRemoteUpdate : RemoteUpdate :=
  { touchesContent := true
    merge := fun c => c
    events := [] }

/-- Witness for C10 on an unparsable id over the empty registry. -/
theorem c10_missing_doc_noop_witness :
    doc_apply_update no_parse [] "not-a-uuid" sampleRemoteUpdate = (false, []) :=
  (c10_missing_doc_noop no_parse zero_bytes zero_diff zero_bytes [] "not-a-uuid" ""
    sampleRemoteUpdate rfl).2.2.2.2.1
